import Mathlib

/-!
Verification of a SaaS-to-Neo4j sync pipeline.

This file shallowly embeds the retry/pagination HTTP client, the graph
merge layer, the relationship linkage, the orchestrator stage sequencing,
and the period-metric denormalization of the repository, and proves the
spec's claims about them.
-/

set_option maxHeartbeats 1000000

namespace SaasSync

/-! ## Retry/pagination client (`{API}Client._make_single_request`)

`_make_single_request` runs `for attempt in range(max_retries)` issuing one
GET per iteration.  The server's answer to the i-th GET is modelled by
`resp i`; the result of the i-th re-authentication attempt (`authenticate()`
called from the 401 handler) by `auth i`.  The Python control flow:

* 2xx: return `(data, next_token)`.
* 401: re-authenticate; on success `continue` (consuming the attempt),
  on failure re-raise the original HTTP error.
* 429: sleep `2^attempt`, `continue`.
* 5xx: sleep `2^attempt`, `continue`.
* other HTTP status: raise immediately.
* network error: if `attempt < max_retries - 1` sleep and `continue`,
  else re-raise the transport error.
* falling off the loop: raise `Exception("Max retries ... exceeded")`.
-/

/-- Server behaviour for one GET: success (with optional next-page token from
the `NextPageToken` header), an HTTP error status, or a transport error. -/
inductive Resp where
  | ok (token : Option String)
  | http (status : Nat)
  | netErr
deriving DecidableEq

/-- Result of `_make_single_request`: the distinct Python exception classes
are distinct constructors (`maxRetriesExceeded` is the bare `Exception`
raised after the loop, distinguishable from `requests` HTTP/transport
errors). -/
inductive Outcome where
  | success (token : Option String)
  | httpError (status : Nat)
  | transportError
  | maxRetriesExceeded
deriving DecidableEq

/-- The retry loop of `_make_single_request`.  `fuel` is the number of
remaining iterations of `for attempt in range(max_retries)` (so
`attempt = maxRetries - fuel`), `gets` counts GETs issued so far and
`reauths` counts re-authentication attempts so far.  Returns the outcome
together with the total number of GETs and re-authentications. -/
def singleRequestGo (resp : Nat → Resp) (auth : Nat → Bool) :
    Nat → Nat → Nat → Outcome × Nat × Nat
  | 0, gets, reauths => (.maxRetriesExceeded, gets, reauths)
  | fuel + 1, gets, reauths =>
    match resp gets with
    | .ok tok => (.success tok, gets + 1, reauths)
    | .http s =>
      if s = 401 then
        if auth reauths then singleRequestGo resp auth fuel (gets + 1) (reauths + 1)
        else (.httpError s, gets + 1, reauths + 1)
      else if s = 429 then singleRequestGo resp auth fuel (gets + 1) reauths
      else if 500 ≤ s ∧ s < 600 then singleRequestGo resp auth fuel (gets + 1) reauths
      else (.httpError s, gets + 1, reauths)
    | .netErr =>
      if 1 ≤ fuel then singleRequestGo resp auth fuel (gets + 1) reauths
      else (.transportError, gets + 1, reauths)

/-- `_make_single_request` with `max_retries = maxRetries`. -/
def makeSingleRequest (resp : Nat → Resp) (auth : Nat → Bool) (maxRetries : Nat) :
    Outcome × Nat × Nat :=
  singleRequestGo resp auth maxRetries 0 0

/-- All-netErr runs exhaust the loop and re-raise the transport error on the
last attempt (`else: raise` at the end of the network-error handler). -/
theorem singleRequestGo_netErr (resp : Nat → Resp) (auth : Nat → Bool)
    (h : ∀ n, resp n = .netErr) :
    ∀ fuel gets reauths, 1 ≤ fuel →
      singleRequestGo resp auth fuel gets reauths = (.transportError, gets + fuel, reauths) := by
  intro fuel
  induction fuel with
  | zero => intro gets reauths hf; omega
  | succ f ih =>
    intro gets reauths _
    rcases Nat.eq_zero_or_pos f with hf | hf
    · subst hf
      simp [singleRequestGo, h]
    · rw [singleRequestGo]
      simp only [h]
      rw [if_pos (show 1 ≤ f by omega), ih (gets + 1) reauths hf]
      refine congrArg (fun n => (Outcome.transportError, n, reauths)) ?_
      omega

/-- All-500 runs consume every attempt and fall off the loop into the
terminal max-retries `Exception`. -/
theorem singleRequestGo_server500 (resp : Nat → Resp) (auth : Nat → Bool)
    (h : ∀ n, resp n = .http 500) :
    ∀ fuel gets reauths,
      singleRequestGo resp auth fuel gets reauths = (.maxRetriesExceeded, gets + fuel, reauths) := by
  intro fuel
  induction fuel with
  | zero => intro gets reauths; simp [singleRequestGo]
  | succ f ih =>
    intro gets reauths
    rw [singleRequestGo]
    simp only [h]
    norm_num
    rw [ih (gets + 1) reauths]
    refine congrArg (fun n => (Outcome.maxRetriesExceeded, n, reauths)) ?_
    omega

/-- C1: in `_make_single_request`, each 401 response triggers one
re-authentication attempt.  If re-authentication succeeds the GET is retried
with the new token; if it fails, the original 401 HTTP error is re-raised at
once with no further retry.  In particular for the response sequence
`[401, 200]` with successful re-authentication the client issues exactly
2 GETs (and exactly 1 re-authentication) and returns successfully. -/
theorem reauth_on_401 :
    (∀ (resp : Nat → Resp) (auth : Nat → Bool) (tok : Option String) (maxRetries : Nat),
        2 ≤ maxRetries → resp 0 = .http 401 → resp 1 = .ok tok → auth 0 = true →
        makeSingleRequest resp auth maxRetries = (.success tok, 2, 1)) ∧
    (∀ (resp : Nat → Resp) (auth : Nat → Bool) (maxRetries : Nat),
        1 ≤ maxRetries → resp 0 = .http 401 → auth 0 = false →
        makeSingleRequest resp auth maxRetries = (.httpError 401, 1, 1)) := by
  constructor
  · intro resp auth tok maxRetries hmr h0 h1 ha
    obtain ⟨m, rfl⟩ : ∃ m, maxRetries = m + 2 := ⟨maxRetries - 2, by omega⟩
    rw [makeSingleRequest, singleRequestGo]
    simp only [h0, ha]
    norm_num
    rw [singleRequestGo]
    simp [h1]
  · intro resp auth maxRetries hmr h0 ha
    obtain ⟨m, rfl⟩ : ∃ m, maxRetries = m + 1 := ⟨maxRetries - 1, by omega⟩
    rw [makeSingleRequest, singleRequestGo]
    simp [h0, ha]

/-- Responses for the `[401, 200]` scenario. -/
def respReauthScenario : Nat → Resp := fun n =>
  if n = 0 then .http 401 else .ok (some "tok")

/-- A re-authentication endpoint that always succeeds. -/
def authAlwaysOk : Nat → Bool := fun _ => true

/-- A re-authentication endpoint that always fails. -/
def authAlwaysFails : Nat → Bool := fun _ => false

/-- Witness for C1: the concrete `[401, 200]` scenario with the default
`max_retries = 3`, and the immediate propagation when re-authentication
fails. -/
theorem reauth_on_401_witness :
    makeSingleRequest respReauthScenario authAlwaysOk 3 = (.success (some "tok"), 2, 1) ∧
    makeSingleRequest respReauthScenario authAlwaysFails 3 = (.httpError 401, 1, 1) :=
  ⟨reauth_on_401.1 respReauthScenario authAlwaysOk (some "tok") 3
     (by norm_num) rfl rfl rfl,
   reauth_on_401.2 respReauthScenario authAlwaysFails 3 (by norm_num) rfl rfl⟩

/-- C2: with `max_retries = N ≥ 1` and a server answering 500 to every GET,
`_make_single_request` issues exactly `N` GETs, then raises the terminal
max-retries-exceeded error, which is a different error from any plain HTTP
or transport error. -/
theorem retry_bound_500 (resp : Nat → Resp) (auth : Nat → Bool) (N : Nat)
    (hN : 1 ≤ N) (h : ∀ n, resp n = .http 500) :
    makeSingleRequest resp auth N = (.maxRetriesExceeded, N, 0) ∧
    (∀ s, (Outcome.maxRetriesExceeded : Outcome) ≠ .httpError s) ∧
    (Outcome.maxRetriesExceeded : Outcome) ≠ .transportError := by
  refine ⟨?_, fun s => by simp, by simp⟩
  rw [makeSingleRequest, singleRequestGo_server500 resp auth h N 0 0]
  simp

/-- A server that always answers 500. -/
def respAlways500 : Nat → Resp := fun _ => .http 500

/-- Witness for C2 at `max_retries = 3`. -/
theorem retry_bound_500_witness :
    makeSingleRequest respAlways500 authAlwaysOk 3 = (.maxRetriesExceeded, 3, 0) ∧
    (∀ s, (Outcome.maxRetriesExceeded : Outcome) ≠ .httpError s) ∧
    (Outcome.maxRetriesExceeded : Outcome) ≠ .transportError :=
  retry_bound_500 respAlways500 authAlwaysOk 3 (by norm_num) (fun _ => rfl)

/-- A server that produces a transport (network) error on every GET. -/
def respAlwaysNetErr : Nat → Resp := fun _ => .netErr

/-- C3 counterexample: with `max_retries = 3` and a transport error on every
attempt, `_make_single_request` raises the underlying transport error (the
`else: raise` branch of the network-error handler fires on the last
attempt), not the max-retries-exceeded error the claim names. -/
theorem transport_exhaustion_counterexample :
    makeSingleRequest respAlwaysNetErr authAlwaysOk 3 = (.transportError, 3, 0) ∧
    (Outcome.transportError : Outcome) ≠ .maxRetriesExceeded := by
  constructor
  · rfl
  · simp

/-- C3 amended: for every `max_retries = N ≥ 1`, if every attempt fails with
a retryable transport error, `_make_single_request` exhausts its retries
issuing exactly `N` GETs and re-raises the underlying transport error (the
terminal max-retries error is never reached on this path). -/
theorem transport_exhaustion (resp : Nat → Resp) (auth : Nat → Bool) (N : Nat)
    (hN : 1 ≤ N) (h : ∀ n, resp n = .netErr) :
    makeSingleRequest resp auth N = (.transportError, N, 0) ∧
    (Outcome.transportError : Outcome) ≠ .maxRetriesExceeded := by
  refine ⟨?_, by simp⟩
  rw [makeSingleRequest, singleRequestGo_netErr resp auth h N 0 0 hN]
  simp

/-- Witness for the amended C3 at `max_retries = 2`. -/
theorem transport_exhaustion_witness :
    makeSingleRequest respAlwaysNetErr authAlwaysOk 2 = (.transportError, 2, 0) ∧
    (Outcome.transportError : Outcome) ≠ .maxRetriesExceeded :=
  transport_exhaustion respAlwaysNetErr authAlwaysOk 2 (by norm_num) (fun _ => rfl)

/-! ## Pagination loop (`{API}Client._make_request`)

`_make_request` loops: issue one page request through
`_make_single_request`, extend `all_items` with `data.get("items", [])`,
and `break` unless (`paginated` and a next-page token was returned).  The
server is modelled as the finite list of pages it serves in order; the i-th
loop iteration consumes the i-th page. -/

/-- One page as served by the API: its `items` array and the next-page
token accompanying it (`None` on the last page). -/
structure Page where
  items : List Nat
  next : Option String
deriving DecidableEq

/-- The `while True` loop body of `_make_request`: consume one served page
per iteration, continue while `paginated` and a token is present.  Returns
the accumulated items and the number of page requests issued. -/
def makeRequestLoop (paginated : Bool) : List Page → List Nat × Nat
  | [] => ([], 0)
  | p :: rest =>
    if paginated ∧ p.next.isSome then
      let r := makeRequestLoop paginated rest
      (p.items ++ r.1, r.2 + 1)
    else (p.items, 1)

/-- `_make_request` against a server that will serve `pages` in order. -/
def makeRequest (paginated : Bool) (pages : List Page) : List Nat × Nat :=
  makeRequestLoop paginated pages

/-- C4: for every finite non-empty page sequence in which every page but the
last carries a next-page cursor and the last page carries none,
`_make_request` requests each page exactly once (`pages.length` requests),
terminates, and returns the concatenation of the per-page item lists, so the
total item count is the sum of the per-page counts. -/
theorem pagination_consumes_each_page_once (pages : List Page) (hne : pages ≠ [])
    (hmid : ∀ i < pages.length - 1, ((pages.getD i ⟨[], none⟩).next).isSome)
    (hlast : (pages.getLast hne).next = none) :
    makeRequest true pages = ((pages.map Page.items).flatten, pages.length) ∧
    (makeRequest true pages).1.length = (pages.map (fun p => p.items.length)).sum := by
  have main : makeRequest true pages = ((pages.map Page.items).flatten, pages.length) := by
    induction pages with
    | nil => exact absurd rfl hne
    | cons p rest ih =>
      cases rest with
      | nil =>
        have hp : p.next = none := by simpa using hlast
        simp [makeRequest, makeRequestLoop, hp]
      | cons q rest2 =>
        have hp : p.next.isSome := by
          have := hmid 0 (by simp)
          simpa using this
        have hmid' : ∀ i < (q :: rest2).length - 1,
            (((q :: rest2).getD i ⟨[], none⟩).next).isSome := by
          intro i hi
          have := hmid (i + 1) (by simp at hi ⊢; omega)
          simpa using this
        have hlast' : ((q :: rest2).getLast (by simp)).next = none := by
          rw [← List.getLast_cons (l := q :: rest2) (by simp)]
          exact hlast
        have ihr := ih (by simp) hmid' hlast'
        rw [makeRequest] at ihr
        rw [makeRequest, makeRequestLoop, if_pos ⟨rfl, hp⟩]
        simp only [ihr]
        simp
  refine ⟨main, ?_⟩
  rw [main]
  simp only [List.length_flatten, List.map_map]
  rfl

/-- A concrete two-page server: items `[1, 2]` with a cursor, then `[3]`
with no cursor. -/
def pagesTwo : List Page := [⟨[1, 2], some "cursor"⟩, ⟨[3], none⟩]

/-- Witness for C4 on the concrete two-page server: 2 requests, items
`[1, 2, 3]`. -/
theorem pagination_consumes_each_page_once_witness :
    makeRequest true pagesTwo = ([1, 2, 3], 2) ∧
    (makeRequest true pagesTwo).1.length = (pagesTwo.map (fun p => p.items.length)).sum :=
  pagination_consumes_each_page_once pagesTwo (by decide) (by decide) (by decide)

/-! ## Property-graph store

Nodes are a label plus a flat property map; property values are the
primitives the sync layer stores.  Reading a missing property yields `null`
(Cypher semantics), and setting a property to `null` is observationally the
same as removing it, since reads of removed properties also yield `null`. -/

/-- A primitive property value.  `null` is both the value of an absent
property and the value bound for a missing input field. -/
inductive Val where
  | str (s : String)
  | bool (b : Bool)
  | int (n : Int)
  | null
deriving DecidableEq

/-- A flat property map, as an association list. -/
abbrev Props := List (String × Val)

/-- Read property `k`; missing properties read as `null`. -/
def getProp (props : Props) (k : String) : Val :=
  match props.find? (fun kv => kv.1 == k) with
  | some kv => kv.2
  | none => .null

/-- Set property `k` to `v`, overwriting an existing entry. -/
def setProp : Props → String → Val → Props
  | [], k, v => [(k, v)]
  | kv :: rest, k, v => if kv.1 = k then (k, v) :: rest else kv :: setProp rest k v

/-- Apply a `SET` clause: set each listed property in order. -/
def setProps (props : Props) : Props → Props
  | [] => props
  | kv :: rest => setProps (setProp props kv.1 kv.2) rest

/-- A graph node: label plus flat properties. -/
structure Node where
  label : String
  props : Props
deriving DecidableEq

/-- Read a property of a node. -/
def nodeProp (n : Node) (k : String) : Val := getProp n.props k

/-- The node store. -/
abbrev Store := List Node

/-- Does `n` match `MERGE (x:label {guid: guid})`? -/
def matchesKey (label : String) (guid : Val) (n : Node) : Bool :=
  n.label == label && nodeProp n "guid" == guid

/-- `MERGE (n:label {guid: guid}) SET ...`: update every node matching the
key, or create one node carrying the key plus the `SET` clause. -/
def mergeNodeOnGuid (store : Store) (label : String) (guid : Val) (sets : Props) : Store :=
  if store.any (matchesKey label guid) then
    store.map (fun n =>
      if matchesKey label guid n then { n with props := setProps n.props sets } else n)
  else
    store ++ [{ label := label, props := setProps [("guid", guid)] sets }]

/-! ## Customer entity sync (`CustomerSync.sync_customer`) -/

/-- A nested API sub-object (`{"guid": ...}`). -/
structure NestedObj where
  guid : Option String
deriving DecidableEq

/-- The customer record as read from the API response dict: every field
`customer_data.get(...)` may be absent. -/
structure CustomerData where
  guid : Option String := none
  name : Option String := none
  number : Option String := none
  isActive : Option Bool := none
  businessUnit : Option NestedObj := none
  accountOwner : Option NestedObj := none
  lastModifiedDateTime : Option String := none
deriving DecidableEq

/-- `if data.get(field): guid = data[field].get("guid")`. -/
def extractNestedGuid : Option NestedObj → Option String
  | some o => o.guid
  | none => none

/-- An optional string bound as a query parameter: `None` becomes `null`. -/
def optStrVal : Option String → Val
  | some s => .str s
  | none => .null

/-- `sync_customer`: `MERGE (c:Customer {guid: $guid}) SET c.name = $name,
c.number = $number, c.isActive = $isActive, c.businessUnitGuid =
$businessUnitGuid, c.accountOwnerGuid = $accountOwnerGuid, c.lastModified =
$lastModified` with the parameter bindings built in the Python body. -/
def syncCustomer (store : Store) (d : CustomerData) : Store :=
  mergeNodeOnGuid store "Customer" (optStrVal d.guid)
    [("name", .str (d.name.getD "")),
     ("number", .str (d.number.getD "")),
     ("isActive", .bool (d.isActive.getD true)),
     ("businessUnitGuid", optStrVal (extractNestedGuid d.businessUnit)),
     ("accountOwnerGuid", optStrVal (extractNestedGuid d.accountOwner)),
     ("lastModified", .str (d.lastModifiedDateTime.getD ""))]

/-- The first merged record: `{"guid": "c-1", "name": "Acme",
"accountOwner": {"guid": "u-9"}}` (the owner foreign key of the code's
customer entity). -/
def custRecFirst : CustomerData :=
  { guid := some "c-1", name := some "Acme", accountOwner := some ⟨some "u-9"⟩ }

/-- The second merged record: `{"guid": "c-1", "name": "Acme Corp"}`, with
no owner field. -/
def custRecSecond : CustomerData :=
  { guid := some "c-1", name := some "Acme Corp" }

/-- Store after merging the first record into an empty store. -/
def storeAfterFirst : Store := syncCustomer [] custRecFirst

/-- Store after merging the second record on top. -/
def storeAfterSecond : Store := syncCustomer storeAfterFirst custRecSecond

/-- C5: merging `{"guid": "c-1", "name": "Acme", owner {"guid": "u-9"}}` as
a Customer yields exactly one node keyed by guid `c-1`, with `name = "Acme"`
and the owner foreign key stored as the flat `accountOwnerGuid` property; a
second merge of `{"guid": "c-1", "name": "Acme Corp"}` without an owner
field updates `name` to `"Acme Corp"` and sets `accountOwnerGuid` to null,
and exactly one node for key `c-1` remains (idempotent merge,
last-write-wins per call). -/
theorem customer_merge_idempotent :
    (storeAfterFirst.filter (matchesKey "Customer" (Val.str "c-1"))).length = 1 ∧
    (∀ n ∈ storeAfterFirst,
      nodeProp n "guid" = .str "c-1" ∧
      nodeProp n "name" = .str "Acme" ∧
      nodeProp n "accountOwnerGuid" = .str "u-9") ∧
    storeAfterSecond.length = 1 ∧
    (storeAfterSecond.filter (matchesKey "Customer" (Val.str "c-1"))).length = 1 ∧
    (∀ n ∈ storeAfterSecond,
      nodeProp n "guid" = .str "c-1" ∧
      nodeProp n "name" = .str "Acme Corp" ∧
      nodeProp n "accountOwnerGuid" = .null) := by
  decide

/-! ## Relationships and the persistence error discipline (`neo4j_base.py`,
`customer_relationships.py`, `aggregation_nodes.py`)

Store failures are modelled by an `Option String` passed to each operation:
`some e` means every session round-trip raises `e`, `none` means the store
works.  An operation that logs and re-raises returns `Except.error e`; an
operation that catches the exception and returns a count returns
`Except.ok` even on failure. -/

/-- A relationship, identified by its type and endpoint keys. -/
structure Rel where
  typ : String
  fromLabel : String
  fromGuid : Val
  toLabel : String
  toGuid : Val
deriving DecidableEq

/-- The graph: nodes plus relationships. -/
structure Graph where
  nodes : Store
  rels : List Rel
deriving DecidableEq

/-- `MERGE` a relationship: add it unless it already exists. -/
def mergeRel (g : Graph) (r : Rel) : Graph :=
  if g.rels.contains r then g else { g with rels := g.rels ++ [r] }

/-- `Neo4jBase._execute_query`: run one query; on success return `True`, on
a session exception log and re-raise. -/
def executeQuery (failure : Option String) : Except String Bool :=
  match failure with
  | some e => .error e
  | none => .ok true

/-- `Neo4jBase._execute_batch`: run the queries in one transaction and
return how many ran; on exception log and re-raise. -/
def executeBatch (failure : Option String) (queries : List String) : Except String Nat :=
  match failure with
  | some e => .error e
  | none => .ok queries.length

/-- The row set of `MATCH (p:entity2) WHERE p.customerGuid IS NOT NULL
MATCH (c:Customer {guid: p.customerGuid})`: one `(c, p)` pair per match. -/
def customerFkRows (entity2 : String) (g : Graph) : List (Node × Node) :=
  (g.nodes.filter
      (fun p => p.label == entity2 && !(nodeProp p "customerGuid" == Val.null))).flatMap
    (fun p =>
      (g.nodes.filter
          (fun c => c.label == "Customer" && nodeProp c "guid" == nodeProp p "customerGuid")).map
        (fun c => (c, p)))

/-- `CustomerRelationships.create_customer_project_relationships` (the
template's `Customer → {Entity2}` linkage): match dependents by foreign key,
`MERGE` the relationship per row, `RETURN count(r)`.  A session exception is
caught, logged, and turned into a normal return of 0. -/
def createCustomerEntityRelationships (entity2 : String) (failure : Option String)
    (g : Graph) : Except String (Nat × Graph) :=
  match failure with
  | some _ => .ok (0, g)
  | none =>
    let rows := customerFkRows entity2 g
    let g2 := rows.foldl
      (fun acc cp =>
        mergeRel acc
          ⟨"HAS_" ++ entity2.toUpper, "Customer", nodeProp cp.1 "guid",
            entity2, nodeProp cp.2 "guid"⟩)
      g
    .ok (rows.length, g2)

/-- The row set of `link_facts_to_periods`: fact nodes with a non-null date
property, paired with the `Month` node whose `id` is the date's
`YYYY-MM` truncation. -/
def factPeriodRows (factEntity dateProp : String) (g : Graph) : List (Node × Node) :=
  (g.nodes.filter
      (fun f => f.label == factEntity && !(nodeProp f dateProp == Val.null))).flatMap
    (fun f =>
      match nodeProp f dateProp with
      | .str s =>
        match s.splitOn "-" with
        | y :: m :: _ =>
          (g.nodes.filter
              (fun mo => mo.label == "Month" && nodeProp mo "id" == Val.str (y ++ "-" ++ m))).map
            (fun mo => (f, mo))
        | _ => []
      | _ => [])

/-- `AggregationNodes.link_facts_to_periods`: `MERGE` a `RECORDED_IN` edge
per matched row and return the row count.  A session exception is caught,
logged, and turned into a normal return of 0. -/
def linkFactsToPeriods (factEntity dateProp : String) (failure : Option String)
    (g : Graph) : Except String (Nat × Graph) :=
  match failure with
  | some _ => .ok (0, g)
  | none =>
    let rows := factPeriodRows factEntity dateProp g
    let g2 := rows.foldl
      (fun acc fm =>
        mergeRel acc
          ⟨"RECORDED_IN", factEntity, nodeProp fm.1 "guid", "Month", nodeProp fm.2 "id"⟩)
      g
    .ok (rows.length, g2)

/-- The empty graph. -/
def emptyGraph : Graph := { nodes := [], rels := [] }

/-- C6 counterexample: with a store whose round-trips all fail with
`"boom"`, the relationship-linkage operation catches the persistence error
and returns the normal result `0` instead of re-raising — while
`_execute_query` on the same failing store does re-raise.  So the layer is
not uniform: relationship linkage swallows persistence errors. -/
theorem persistence_error_swallowed_counterexample :
    createCustomerEntityRelationships "Project" (some "boom") emptyGraph =
      .ok (0, emptyGraph) ∧
    (∀ e, createCustomerEntityRelationships "Project" (some "boom") emptyGraph ≠
      .error e) ∧
    linkFactsToPeriods "WorkHour" "eventDate" (some "boom") emptyGraph =
      .ok (0, emptyGraph) ∧
    executeQuery (some "boom") = .error "boom" := by
  refine ⟨rfl, ?_, rfl, rfl⟩
  intro e h
  simp [createCustomerEntityRelationships] at h

/-- C6 amended: single-query execution and batch execution log persistence
failures and re-raise them, but the relationship-linkage and period-linkage
operations catch persistence failures and return the normal result `0`
instead — those two operations do swallow persistence errors. -/
theorem persistence_error_policy (e : String) (g : Graph) (queries : List String) :
    executeQuery (some e) = .error e ∧
    executeBatch (some e) queries = .error e ∧
    createCustomerEntityRelationships "Project" (some e) g = .ok (0, g) ∧
    linkFactsToPeriods "WorkHour" "eventDate" (some e) g = .ok (0, g) :=
  ⟨rfl, rfl, rfl, rfl⟩

/-- `MERGE` of a relationship never touches the node store. -/
theorem mergeRel_nodes (g : Graph) (r : Rel) : (mergeRel g r).nodes = g.nodes := by
  unfold mergeRel
  split <;> rfl

/-- Folding relationship merges over a row list never touches the node
store. -/
theorem foldl_mergeRel_nodes {α : Type} (mk : α → Rel) :
    ∀ (rows : List α) (g : Graph),
      (rows.foldl (fun acc x => mergeRel acc (mk x)) g).nodes = g.nodes := by
  intro rows
  induction rows with
  | nil => intro g; rfl
  | cons x xs ih =>
    intro g
    simp only [List.foldl_cons]
    rw [ih (mergeRel g (mk x)), mergeRel_nodes]

/-- Every relationship present after folding relationship merges was either
already present, or is the merge of one of the rows. -/
theorem foldl_mergeRel_mem {α : Type} (mk : α → Rel) :
    ∀ (rows : List α) (g : Graph) (r : Rel),
      r ∈ (rows.foldl (fun acc x => mergeRel acc (mk x)) g).rels →
      r ∈ g.rels ∨ ∃ x ∈ rows, r = mk x := by
  intro rows
  induction rows with
  | nil => intro g r h; exact Or.inl h
  | cons x xs ih =>
    intro g r h
    simp only [List.foldl_cons] at h
    rcases ih (mergeRel g (mk x)) r h with hin | ⟨x', hx', rfl⟩
    · unfold mergeRel at hin
      split at hin
      · exact Or.inl hin
      · simp only [List.mem_append, List.mem_singleton] at hin
        rcases hin with hin | rfl
        · exact Or.inl hin
        · exact Or.inr ⟨x, List.mem_cons_self x xs, rfl⟩
    · exact Or.inr ⟨x', List.mem_cons_of_mem x hx', rfl⟩

/-- C7: if a dependent node's `customerGuid` foreign key names a guid for
which no `Customer` node exists, the relationship-linkage call returns
normally (no exception), creates no relationship targeting that dependent
record, and never creates the referenced node (the node store is unchanged).
`hkey` is the store's node-key invariant for the dependent label. -/
theorem dangling_fk_zero_relationships (entity2 : String) (g : Graph) (p : Node) (v : Val)
    (hp : p ∈ g.nodes) (hl : p.label = entity2)
    (hfk : nodeProp p "customerGuid" = v) (hv : v ≠ Val.null)
    (hkey : ∀ q ∈ g.nodes, q.label = entity2 → nodeProp q "guid" = nodeProp p "guid" → q = p)
    (hnocust : ∀ c ∈ g.nodes, ¬(c.label = "Customer" ∧ nodeProp c "guid" = v)) :
    ∃ cnt g2, createCustomerEntityRelationships entity2 none g = .ok (cnt, g2) ∧
      g2.nodes = g.nodes ∧
      ∀ r ∈ g2.rels, r ∉ g.rels →
        ¬(r.toLabel = entity2 ∧ r.toGuid = nodeProp p "guid") := by
  refine ⟨(customerFkRows entity2 g).length, _, rfl, foldl_mergeRel_nodes _ _ g, ?_⟩
  intro r hr hnotold ⟨_, hguid⟩
  rcases foldl_mergeRel_mem _ (customerFkRows entity2 g) g r hr with hold | ⟨cp, hcp, rfl⟩
  · exact hnotold hold
  · simp only [customerFkRows, List.mem_flatMap, List.mem_filter, List.mem_map] at hcp
    obtain ⟨q, ⟨⟨hqmem, hqf⟩, c, ⟨⟨hcmem, hcf⟩, rfl⟩⟩⟩ := hcp
    simp only [Bool.and_eq_true, beq_iff_eq, Bool.not_eq_eq_eq_not, Bool.not_true,
      beq_eq_false_iff_ne] at hqf hcf
    have hq : q = p := hkey q hqmem hqf.1 (by simpa using hguid)
    subst hq
    exact hnocust c hcmem ⟨hcf.1, by rw [hcf.2, hfk]⟩

/-- Concrete graph for the C7 witness: one `Project` node whose
`customerGuid` points at `"c-404"`, and no `Customer` node at all. -/
def danglingGraph : Graph :=
  { nodes := [{ label := "Project",
                props := [("guid", .str "p-1"), ("customerGuid", .str "c-404")] }],
    rels := [] }

/-- The dependent node of `danglingGraph`. -/
def danglingProject : Node :=
  { label := "Project", props := [("guid", .str "p-1"), ("customerGuid", .str "c-404")] }

/-- Witness for C7 on `danglingGraph`. -/
theorem dangling_fk_zero_relationships_witness :
    ∃ cnt g2, createCustomerEntityRelationships "Project" none danglingGraph = .ok (cnt, g2) ∧
      g2.nodes = danglingGraph.nodes ∧
      ∀ r ∈ g2.rels, r ∉ danglingGraph.rels →
        ¬(r.toLabel = "Project" ∧ r.toGuid = nodeProp danglingProject "guid") :=
  dangling_fk_zero_relationships "Project" danglingGraph danglingProject (Val.str "c-404")
    (by decide) rfl rfl (by decide) (by decide) (by decide)

/-! ## Orchestrator (`SyncOrchestrator.run_full_sync`)

Stage sequencing of `run_full_sync(create_indexes, dry_run)`:
authentication first (a failure returns `False` immediately); every later
stage except the final summary is guarded by `not dry_run` (index creation
additionally by `create_indexes`, metrics/analytics additionally by their
feature flags); the summary always runs on the success path and the
function returns `True`. -/

/-- The sync stages of `run_full_sync`. -/
inductive Stage where
  | auth | index | reference | coreEntities | transactional
  | relationships | metrics | analytics | summary
deriving DecidableEq

/-- `run_full_sync`: returns the success flag together with the ordered
list of stages that actually executed. -/
def runFullSync (authOk createIndexes dryRun enableMetrics enableAnalytics : Bool) :
    Bool × List Stage :=
  if !authOk then (false, [.auth])
  else
    let s := [Stage.auth]
    let s := if createIndexes && !dryRun then s ++ [.index] else s
    let s := if !dryRun then s ++ [.reference] else s
    let s := if !dryRun then s ++ [.coreEntities] else s
    let s := if !dryRun then s ++ [.transactional] else s
    let s := if !dryRun then s ++ [.relationships] else s
    let s := if enableMetrics && !dryRun then s ++ [.metrics] else s
    let s := if enableAnalytics && !dryRun then s ++ [.analytics] else s
    (true, s ++ [.summary])

/-- C8: with `dry_run = True` and successful authentication,
`run_full_sync` executes only the AUTH stage (plus the final summary
report): index creation, reference data, core entities, transactional data,
relationships, metrics and analytics are all skipped, whatever the index
and feature flags, and the run returns `True`.  With `dry_run = True` and
failing authentication it returns `False` immediately. -/
theorem dry_run_executes_only_auth :
    ∀ (createIndexes enableMetrics enableAnalytics : Bool),
      runFullSync true createIndexes true enableMetrics enableAnalytics =
        (true, [.auth, .summary]) ∧
      (∀ st ∈ [Stage.index, .reference, .coreEntities, .transactional,
               .relationships, .metrics, .analytics],
        st ∉ (runFullSync true createIndexes true enableMetrics enableAnalytics).2) ∧
      runFullSync false createIndexes true enableMetrics enableAnalytics =
        (false, [.auth]) := by
  decide

/-! ## Period-metric denormalization (`Denormalization.calculate_period_metrics`)

`calculate_period_metrics(period_type, periods)` first short-circuits:
`if periods is not None and len(periods) == 0: return 0` — before building
any query or opening a session.  Otherwise it runs one query matching
`(p:{period_type.capitalize()})`, restricted by `WHERE p.id IN $periods`
exactly when an explicit list was given, sets the denormalized metric
properties of each matched period node, and returns `count(p)`.  The
per-period metric bag computed by the query's aggregation pipeline is
abstracted as `agg` (the template marks it TODO); the claim under proof
concerns only which nodes are targeted and when the store is touched. -/

/-- Python's `str.capitalize`: first character upper-cased, rest
lower-cased. -/
def pyCapitalize (s : String) : String :=
  match s.data with
  | [] => ""
  | c :: cs => String.mk (c.toUpper :: cs.map Char.toLower)

/-- Is `n` matched by the period query: label `period_type.capitalize()`
and, when an explicit period list is given, `p.id IN $periods`? -/
def periodTargeted (periodType : String) (periods : Option (List String)) (n : Node) : Bool :=
  n.label == pyCapitalize periodType &&
    match periods with
    | some ps => ps.any (fun pid => nodeProp n "id" == Val.str pid)
    | none => true

/-- `calculate_period_metrics`.  Returns the period count, the resulting
store, and the number of store round-trips issued. -/
def calculatePeriodMetrics (agg : Graph → Node → Props) (periodType : String)
    (periods : Option (List String)) (g : Graph) : Nat × Graph × Nat :=
  if periods = some [] then (0, g, 0)
  else
    let matched := g.nodes.filter (periodTargeted periodType periods)
    let g2 := { g with nodes := g.nodes.map (fun n =>
      if periodTargeted periodType periods n then
        { n with props := setProps n.props (agg g n) }
      else n) }
    (matched.length, g2, 1)

/-- C9: calling `calculate_period_metrics` with an explicit empty period
list returns 0, issues no store round-trip, and leaves the store — in
particular every period node's metric properties — unchanged; this is
distinguished from `periods = None`, which issues the query and targets
exactly the period nodes of the given type (all nodes labelled
`period_type.capitalize()`). -/
theorem empty_period_list_noop (agg : Graph → Node → Props) (periodType : String)
    (g : Graph) :
    calculatePeriodMetrics agg periodType (some []) g = (0, g, 0) ∧
    (calculatePeriodMetrics agg periodType none g).2.2 = 1 ∧
    (calculatePeriodMetrics agg periodType none g).1 =
      (g.nodes.filter (fun n => n.label == pyCapitalize periodType)).length ∧
    (calculatePeriodMetrics agg periodType none g).2.1.nodes =
      g.nodes.map (fun n =>
        if n.label == pyCapitalize periodType then
          { n with props := setProps n.props (agg g n) }
        else n) := by
  have hpt : periodTargeted periodType none = fun n => n.label == pyCapitalize periodType := by
    funext n
    simp [periodTargeted]
  refine ⟨rfl, rfl, ?_, ?_⟩ <;>
    simp [calculatePeriodMetrics, hpt]

/-! ## Batch merge (`Neo4jBase.batch_merge_nodes`)

`batch_merge_nodes(label, items, batch_size)` returns 0 for empty input
without touching the store, otherwise slices `items` into `batch_size`
chunks and runs one `UNWIND $batch MERGE (n:label {guid: item.guid})
SET ...` query per chunk.  The `SET` clause is built from the keys of the
chunk's FIRST item only (`sample_item = batch[0]`), excluding `guid`, with
fallback clause `n.guid = item.guid` when no other key exists.  A chunk
containing an item whose `guid` is null makes the `MERGE` fail (Cypher
refuses to merge on a null property); the failed query writes nothing and
the exception is logged and re-raised. -/

/-- `getProp` on a cons cell. -/
theorem getProp_cons (kv : String × Val) (l : Props) (k : String) :
    getProp (kv :: l) k = if kv.1 = k then kv.2 else getProp l k := by
  by_cases h : kv.1 = k
  · simp [getProp, List.find?_cons_of_pos, h]
  · simp only [getProp, List.find?]
    rw [if_neg h]
    have : (kv.1 == k) = false := by simpa using h
    rw [this]

/-- Setting `k` then reading `k` yields the written value. -/
theorem getProp_setProp_self (k : String) (v : Val) :
    ∀ props : Props, getProp (setProp props k v) k = v := by
  intro props
  induction props with
  | nil => simp [setProp, getProp_cons]
  | cons kv rest ih =>
    by_cases h : kv.1 = k
    · simp [setProp, h, getProp_cons]
    · rw [setProp, if_neg h, getProp_cons, if_neg h]
      exact ih

/-- Setting `k` leaves every other property unchanged. -/
theorem getProp_setProp_ne (k k' : String) (v : Val) (h : k' ≠ k) :
    ∀ props : Props, getProp (setProp props k v) k' = getProp props k' := by
  intro props
  induction props with
  | nil =>
    rw [setProp, getProp_cons, if_neg (fun hk => h hk.symm)]
  | cons kv rest ih =>
    by_cases hk : kv.1 = k
    · rw [setProp, if_pos hk, getProp_cons, if_neg (fun h2 => h h2.symm), getProp_cons,
        if_neg (fun h2 => (h (hk ▸ h2).symm))]
    · rw [setProp, if_neg hk, getProp_cons, getProp_cons]
      by_cases hk' : kv.1 = k'
      · rw [if_pos hk', if_pos hk']
      · rw [if_neg hk', if_neg hk']
        exact ih

/-- A `SET` clause not mentioning `k` leaves `k` unchanged. -/
theorem getProp_setProps_notMem (k : String) :
    ∀ (sets props : Props), k ∉ sets.map Prod.fst →
      getProp (setProps props sets) k = getProp props k := by
  intro sets
  induction sets with
  | nil => intro props _; rfl
  | cons kv rest ih =>
    intro props hk
    simp only [List.map_cons, List.mem_cons] at hk
    push_neg at hk
    rw [setProps, ih (setProp props kv.1 kv.2) hk.2,
      getProp_setProp_ne kv.1 k kv.2 hk.1]

/-- A `SET` clause whose every write to `k` writes the value `v` preserves
`getProp _ k = v`. -/
theorem getProp_setProps_const (k : String) (v : Val) :
    ∀ (sets props : Props), (∀ w, (k, w) ∈ sets → w = v) →
      getProp props k = v → getProp (setProps props sets) k = v := by
  intro sets
  induction sets with
  | nil => intro props _ hold; exact hold
  | cons kv rest ih =>
    intro props h hold
    rw [setProps]
    refine ih (setProp props kv.1 kv.2) (fun w hw => h w (List.mem_cons_of_mem kv hw)) ?_
    by_cases hk : kv.1 = k
    · subst hk
      rw [getProp_setProp_self]
      exact h kv.2 (by simp)
    · rw [getProp_setProp_ne kv.1 k kv.2 (fun h2 => hk h2.symm)]
      exact hold

/-- Frame property of one keyed `MERGE ... SET`: a property `k` outside the
`SET` clause and different from the merge key is never written — every
non-null value of `k` after the merge was already on a node with the same
label and guid before.  `hg` says the clause only ever writes the merge key
value into `guid`. -/
theorem mergeNodeOnGuid_frame (store : Store) (label : String) (guid : Val) (sets : Props)
    (k : String) (hk : k ∉ sets.map Prod.fst) (hkg : k ≠ "guid")
    (hg : ∀ w, ("guid", w) ∈ sets → w = guid) :
    ∀ n2 ∈ mergeNodeOnGuid store label guid sets, nodeProp n2 k ≠ Val.null →
      ∃ n ∈ store, n.label = n2.label ∧ nodeProp n "guid" = nodeProp n2 "guid" ∧
        nodeProp n k = nodeProp n2 k := by
  intro n2 hn2 hnull
  rw [mergeNodeOnGuid] at hn2
  split at hn2
  · obtain ⟨n, hn, rfl⟩ := List.mem_map.mp hn2
    by_cases hm : matchesKey label guid n = true
    · rw [if_pos hm]
      refine ⟨n, hn, rfl, ?_, ?_⟩
      · have hguid : getProp n.props "guid" = guid := by
          have := hm
          simp only [matchesKey, Bool.and_eq_true, beq_iff_eq] at this
          exact this.2
        simp only [nodeProp]
        rw [getProp_setProps_const "guid" guid sets n.props hg hguid, hguid]
      · simp only [nodeProp]
        rw [getProp_setProps_notMem k sets n.props hk]
    · rw [if_neg hm]
      exact ⟨n, hn, rfl, rfl, rfl⟩
  · rcases List.mem_append.mp hn2 with hin | hnew
    · exact ⟨n2, hin, rfl, rfl, rfl⟩
    · exfalso
      apply hnull
      simp only [List.mem_singleton] at hnew
      subst hnew
      simp only [nodeProp]
      rw [getProp_setProps_notMem k sets _ hk, getProp_cons,
        if_neg (fun h => hkg h.symm)]
      rfl

/-- The guid of an item dict (`item.guid`; null when absent). -/
def itemGuid (item : Props) : Val := getProp item "guid"

/-- Merge one `UNWIND` row: `MERGE (n:label {guid: item.guid})` and `SET`
each clause key to the item's value at that key (null when absent). -/
def mergeItem (label : String) (keys : List String) (store : Store) (item : Props) : Store :=
  mergeNodeOnGuid store label (itemGuid item) (keys.map (fun k2 => (k2, getProp item k2)))

/-- The `SET`-clause keys of a chunk: the non-`guid` keys of the chunk's
first item (`sample_item = batch[0]`), with the `n.guid = item.guid`
fallback when that set is empty. -/
def clauseKeys (chunk : List Props) : List String :=
  let ks := (chunk.headI.map Prod.fst).filter (fun k2 => !(k2 == "guid"))
  if ks = [] then ["guid"] else ks

/-- One chunk's `UNWIND ... MERGE ... SET` query.  If any row's `guid` is
null the whole query fails and writes nothing (rolled back); otherwise each
row is merged in order. -/
def processChunk (label : String) (store : Store) (chunk : List Props) :
    Except String Store :=
  if chunk.any (fun it => itemGuid it == Val.null) then
    .error "cannot merge on null guid"
  else
    .ok (chunk.foldl (mergeItem label (clauseKeys chunk)) store)

/-- The chunking `for i in range(0, len(items), batch_size)`. -/
def chunksOf (n : Nat) : List Props → List (List Props)
  | [] => []
  | x :: xs =>
    if h : n = 0 then [x :: xs]
    else (x :: xs).take n :: chunksOf n ((x :: xs).drop n)
termination_by l => l.length
decreasing_by
  simp only [List.length_drop]
  simp only [List.length_cons]
  omega

/-- The chunk loop of `batch_merge_nodes`, accumulating the item count and
the number of store round-trips; a chunk failure is re-raised. -/
def batchLoop (label : String) : List (List Props) → Store → Nat → Nat →
    Except String (Nat × Store × Nat)
  | [], store, cnt, q => .ok (cnt, store, q)
  | c :: cs, store, cnt, q =>
    if c = [] then batchLoop label cs store cnt q
    else
      match processChunk label store c with
      | .ok store2 => batchLoop label cs store2 (cnt + c.length) (q + 1)
      | .error e => .error e

/-- `batch_merge_nodes`: early return on empty input, else chunked
processing.  Returns the reported count, resulting store, and the number
of store round-trips. -/
def batchMergeNodes (label : String) (items : List Props) (batchSize : Nat)
    (store : Store) : Except String (Nat × Store × Nat) :=
  if items = [] then .ok (0, store, 0)
  else batchLoop label (chunksOf batchSize items) store 0 0

/-- A key outside the first item's keys and different from `guid` is not a
clause key. -/
theorem not_mem_clauseKeys (chunk : List Props) (k : String)
    (hk : k ∉ chunk.headI.map Prod.fst) (hkg : k ≠ "guid") :
    k ∉ clauseKeys chunk := by
  rw [clauseKeys]
  split
  · simpa using hkg
  · intro hmem
    exact hk (List.mem_filter.mp hmem).1

/-- Frame property of the per-chunk row fold. -/
theorem foldl_mergeItem_frame (label : String) (keys : List String) (k : String)
    (hk : k ∉ keys) (hkg : k ≠ "guid") :
    ∀ (its : List Props) (store : Store), ∀ n2 ∈ its.foldl (mergeItem label keys) store,
      nodeProp n2 k ≠ Val.null →
      ∃ n ∈ store, n.label = n2.label ∧ nodeProp n "guid" = nodeProp n2 "guid" ∧
        nodeProp n k = nodeProp n2 k := by
  intro its
  induction its with
  | nil => intro store n2 hn2 _; exact ⟨n2, hn2, rfl, rfl, rfl⟩
  | cons it rest ih =>
    intro store n2 hn2 hnull
    simp only [List.foldl_cons] at hn2
    obtain ⟨n1, hn1, hlab, hguid, hkeq⟩ := ih (mergeItem label keys store it) n2 hn2 hnull
    have hsets : k ∉ (keys.map (fun k2 => (k2, getProp it k2))).map Prod.fst := by
      simpa [List.map_map, Function.comp] using hk
    have hg : ∀ w, ("guid", w) ∈ keys.map (fun k2 => (k2, getProp it k2)) → w = itemGuid it := by
      intro w hw
      obtain ⟨k2, _, h2⟩ := List.mem_map.mp hw
      have h3 : k2 = "guid" := congrArg Prod.fst h2
      have h4 : getProp it k2 = w := congrArg Prod.snd h2
      rw [← h4, h3]
      rfl
    obtain ⟨n, hn, hlab2, hguid2, hkeq2⟩ :=
      mergeNodeOnGuid_frame store label (itemGuid it) _ k hsets hkg hg n1 hn1
        (hkeq ▸ hnull)
    exact ⟨n, hn, hlab2.trans hlab, hguid2.trans hguid, hkeq2.trans hkeq⟩

/-- C10: `batch_merge_nodes` derives each chunk's `SET` clause solely from
the keys of that chunk's first item: a property key absent from the chunk's
first item (and different from the `guid` merge key) is never written by
that chunk's query — any non-null value it has afterwards was already on a
node with the same label and guid before.  With an empty items list the
function returns 0 with no store round-trip. -/
theorem batch_set_clause_from_first_item :
    (∀ (label : String) (batchSize : Nat) (store : Store),
        batchMergeNodes label [] batchSize store = .ok (0, store, 0)) ∧
    (∀ (label : String) (items : List Props) (batchSize : Nat) (chunk : List Props)
        (store store2 : Store) (k : String),
        chunk ∈ chunksOf batchSize items →
        k ∉ chunk.headI.map Prod.fst → k ≠ "guid" →
        processChunk label store chunk = .ok store2 →
        ∀ n2 ∈ store2, nodeProp n2 k ≠ Val.null →
          ∃ n ∈ store, n.label = n2.label ∧ nodeProp n "guid" = nodeProp n2 "guid" ∧
            nodeProp n k = nodeProp n2 k) := by
  constructor
  · intro label batchSize store; rfl
  · intro label items batchSize chunk store store2 k _ hk hkg hok n2 hn2 hnull
    rw [processChunk] at hok
    split at hok
    · exact absurd hok (by simp)
    · have hstore2 : store2 = chunk.foldl (mergeItem label (clauseKeys chunk)) store := by
        cases hok; rfl
      subst hstore2
      exact foldl_mergeItem_frame label (clauseKeys chunk) k
        (not_mem_clauseKeys chunk k hk hkg) hkg chunk store n2 hn2 hnull

/-- The chunk used by the C10 witness: the second item carries an `extra`
key the first item lacks. -/
def chunkWitness : List Props :=
  [[("guid", .str "1"), ("name", .str "A")],
   [("guid", .str "2"), ("name", .str "B"), ("extra", .str "X")]]

/-- The store produced by processing `chunkWitness` on an empty store:
`extra` is never written. -/
def storeWitness : Store :=
  [{ label := "Customer", props := [("guid", .str "1"), ("name", .str "A")] },
   { label := "Customer", props := [("guid", .str "2"), ("name", .str "B")] }]

/-- Witness for C10: the empty-items early return on a concrete store, and
the frame property applied to `chunkWitness` with key `"extra"`. -/
theorem batch_set_clause_from_first_item_witness :
    batchMergeNodes "Customer" [] 1000 storeWitness = .ok (0, storeWitness, 0) ∧
    (∀ n2 ∈ storeWitness, nodeProp n2 "extra" ≠ Val.null →
      ∃ n ∈ ([] : Store), n.label = n2.label ∧ nodeProp n "guid" = nodeProp n2 "guid" ∧
        nodeProp n "extra" = nodeProp n2 "extra") :=
  ⟨batch_set_clause_from_first_item.1 "Customer" 1000 storeWitness,
   batch_set_clause_from_first_item.2 "Customer" chunkWitness 1000 chunkWitness []
     storeWitness "extra"
     (by
       rw [show chunksOf 1000 chunkWitness = [chunkWitness] by simp [chunksOf, chunkWitness]]
       exact List.mem_singleton.mpr rfl)
     (by decide) (by decide) rfl⟩

end SaasSync









